import Mathlib

/-!
Shallow embedding of `routersploit/utils.py` (console support layer of the
routersploit shell): path codec, command guards, synchronized colour
printing, table rendering, ordered record printing and the HTTP wrapper.

Python strings are modelled as `List Char` (or Lean `String` where
convenient), Python `None`-returning functions as `Option`, and raised
exceptions as `Except PyErr`.  Printed output is collected as a list of
the strings passed to the underlying `print` calls.
-/

namespace RsUtils

/-- Python exceptions that the embedded code can raise. -/
inductive PyErr where
  /-- `TypeError`, e.g. `max` applied to a single int, or an unexpected
  keyword argument passed to `print`. -/
  | typeError
  /-- `KeyError`, e.g. an unknown colour name looked up in `colors`. -/
  | keyError
  /-- `NameError`, a free variable referenced before assignment. -/
  | nameError
  deriving DecidableEq, Repr

/-! ## PathCodec: `pythonize_path` / `humanize_path` (utils.py lines 21-38) -/

/-- `pythonize_path(path)`: `path.replace('/', '.')`.  Python's
single-character `str.replace` is a character-wise map. -/
def pythonize_path (path : List Char) : List Char :=
  path.map (fun c => if c = '/' then '.' else c)

/-- `humanize_path(path)`: `path.replace('.', '/')`. -/
def humanize_path (path : List Char) : List Char :=
  path.map (fun c => if c = '.' then '/' else c)

/-! ## ActivationGuard: `module_required` (utils.py lines 41-58)

The wrapped handler receives `self`; we model `self` as the truthiness of
`self.current_module` together with an abstract remaining state `σ` that
the handler may mutate, and a result value `α`.  The wrapper's observable
behaviour is the resulting state, the returned value (`none` = Python
`None`, the bare `return`) and the error lines printed. -/

/-- The `self` object seen by a `module_required`-guarded command handler:
the truthiness of `self.current_module` plus the rest of its state. -/
structure ShellSelf (σ : Type) where
  current_module : Bool
  rest : σ
  deriving DecidableEq, Repr

/-- The message printed by the guard when no module is active. -/
def moduleRequiredError : String :=
  "You have to activate any module with 'use' command."

/-- `module_required(fn)`'s inner `wrapper`: if `self.current_module` is
falsy, print one error and return `None` without calling `fn`; otherwise
call `fn` once and return its result.  Output: (final state, returned
value, error lines printed by the guard itself). -/
def module_required {σ α : Type} (fn : ShellSelf σ → ShellSelf σ × α)
    (self : ShellSelf σ) : ShellSelf σ × Option α × List String :=
  if self.current_module = false then
    (self, none, [moduleRequiredError])
  else
    let r := fn self
    (r.1, some r.2, [])

/-! ## CompletionBoundary: `stop_after` (utils.py lines 61-86) -/

/-- First occurrence of `' '` in a character list: the part before it and
the part after it, or `none` when there is no space. -/
def splitFirstSpace : List Char → Option (List Char × List Char)
  | [] => none
  | c :: cs =>
    if c = ' ' then some ([], cs)
    else
      match splitFirstSpace cs with
      | none => none
      | some p => some (c :: p.1, p.2)

/-- Python `line.split(' ', maxsplit)`: split on each `' '` (keeping empty
pieces) doing at most `maxsplit` splits. -/
def pySplitSpace (line : List Char) : Nat → List (List Char)
  | 0 => [line]
  | m + 1 =>
    match splitFirstSpace line with
    | none => [line]
    | some p => p.1 :: pySplitSpace p.2 m

/-- Result of one call to a completion function wrapped by `stop_after`:
whether the wrapped callback was invoked, the candidate list returned,
and anything printed by the `except` arm. -/
structure CompletionOutcome (α : Type) where
  invoked : Bool
  candidates : List α
  logged : List String
  deriving DecidableEq, Repr

/-- `stop_after(space_number)`'s inner `_wrapper`.  `args[1]` (the input
line) is inspected inside a `try`; `inspect` is `.error e` when reading it
raises (the exception is printed and the callback still runs: fail-open).
`wrapped` is the candidate list the wrapped completion function returns. -/
def stop_after {α : Type} (space_number : Nat) (wrapped : List α)
    (inspect : Except String (List Char)) : CompletionOutcome α :=
  match inspect with
  | .ok line =>
    if (pySplitSpace line space_number).length = space_number + 1 then
      ⟨false, [], []⟩
    else
      ⟨true, wrapped, []⟩
  | .error e => ⟨true, wrapped, [e]⟩

/-! ## HttpClient: `http_request` (utils.py lines 261-273)

The underlying `requests` library is external; we model the outcome of
dispatching `getattr(requests, method.lower())(url, **kwargs)` as an
oracle value.  `requests.exceptions.MissingSchema` and `InvalidSchema`
are caught first, then `ConnectionError`, then any other
`RequestException`; anything else (e.g. `AttributeError` from an unknown
verb) propagates. -/

/-- Possible outcomes of the underlying `requests` call. -/
inductive ReqOutcome where
  | success (resp : String)
  | missingSchema
  | invalidSchema
  | connectionError
  | requestException (msg : String)
  /-- an exception that is not a `RequestException` (propagates). -/
  | unhandled (msg : String)
  deriving DecidableEq, Repr

/-- What one `http_request` call produces: the value returned to the
caller (`none` = the bare `return`) and the error lines printed. -/
structure HttpResult where
  result : Option String
  errors : List String
  deriving DecidableEq, Repr

/-- `http_request(method, url, **kwargs)`: returns the response on
success; on the three recognized exception classes prints one error of
the corresponding form and returns `None`; any other exception
propagates. -/
def http_request (url : String) (outcome : ReqOutcome) :
    Except String HttpResult :=
  match outcome with
  | .success resp => .ok ⟨some resp, []⟩
  | .missingSchema => .ok ⟨none, ["Invalid URL format: " ++ url]⟩
  | .invalidSchema => .ok ⟨none, ["Invalid URL format: " ++ url]⟩
  | .connectionError => .ok ⟨none, ["Connection error: " ++ url]⟩
  | .requestException msg => .ok ⟨none, [msg]⟩
  | .unhandled msg => .error msg

/-! ## SynchronizedWriter: `colors` and `__cprint` (utils.py lines 13-108)

`__cprint` reads `verbose` (default `True`) and `color` (default `None`)
out of `**kwargs`.  In the colour branch it issues three `print` calls
(escape start with `end=''`, the joined args with `end=''`, the reset
escape with the real `end`), all under `print_lock`.  In the no-colour
branch it forwards `*args, **kwargs` to `print` unchanged — so any
`verbose` or `color` key still present in `kwargs` reaches `print`,
which rejects unknown keyword arguments with a `TypeError`. -/

/-- The fixed `colors` table. -/
def colors : List (String × Nat) :=
  [("grey", 30), ("red", 31), ("green", 32), ("yellow", 33),
   ("blue", 34), ("magenta", 35), ("cyan", 36), ("white", 37)]

/-- The `**kwargs` of one `__cprint` call.  A field is `none` when the
key was not passed.  `color` is doubly optional: `some none` means the
caller passed `color=None` explicitly (falsy, but the key is present in
`kwargs`).  Streams are identified by a number (stdout = 0). -/
structure CPrintKw where
  verbose : Option Bool
  color : Option (Option String)
  sep : Option String
  endv : Option String
  file : Option Nat
  deriving DecidableEq, Repr

/-- The `**kwargs` of a plain call: nothing passed. -/
def noKw : CPrintKw := ⟨none, none, none, none, none⟩

/-- `__cprint(*args, **kwargs)`.  Result: the list of `(stream, text)`
writes performed (one entry per underlying `print` call), or the raised
exception.  `args` are the already-stringified positional arguments. -/
def cprint (args : List String) (kw : CPrintKw) :
    Except PyErr (List (Nat × String)) :=
  if kw.verbose.getD true = false then .ok []
  else
    match kw.color with
    | some (some c) =>
      if c = "" then
        -- a falsy colour value falls through to `print(*args, **kwargs)`
        -- with the `color` key still present: TypeError
        .error .typeError
      else
        match colors.lookup c with
        | some code =>
          let f := kw.file.getD 0
          let e := kw.endv.getD "\n"
          .ok [(f, "\x1b[" ++ toString code ++ "m"),
               (f, String.intercalate (kw.sep.getD " ") args),
               (f, "\x1b[0m" ++ e)]
        | none => .error .keyError
    | some none => .error .typeError
    | none =>
      if kw.verbose.isSome then .error .typeError
      else
        .ok [(kw.file.getD 0,
              String.intercalate (kw.sep.getD " ") args ++ kw.endv.getD "\n")]

/-- The pre-coloured glyph `print_error` prepends to its arguments. -/
def errorGlyph : String := "\x1b[91m[-]\x1b[0m"

/-- `print_error(*args, **kwargs)`. -/
def print_error (args : List String) (kw : CPrintKw) :
    Except PyErr (List (Nat × String)) :=
  cprint (errorGlyph :: args) kw

/-! ## TableRenderer: `print_table` (utils.py lines 144-199) -/

/-- A table cell value: either a Python `str` (has a length), or any
other object (its `len()` raises `TypeError`; `repr` is its `str()`
rendering used by `format`). -/
inductive Cell where
  | str (s : String)
  | nolen (repr : String)
  deriving DecidableEq, Repr

/-- `custom_len(x)`: `len(x)`, with `TypeError` caught and turned into 0. -/
def custom_len : Cell → Nat
  | .str s => s.length
  | .nolen _ => 0

/-- `str(x)` as used by `'{:<{}}'.format(element, fill)`. -/
def cellStr : Cell → String
  | .str s => s
  | .nolen r => r

/-- `'{:<{w}}'.format(s)`: left-justify by padding with spaces to width
`w` (no truncation when `s` is longer). -/
def ljust (s : String) (w : Nat) : String :=
  s ++ String.mk (List.replicate (w - s.length) ' ')

/-- Python `max(a, *rest)`: with `rest` empty this is `max(a)`, iterating
the integer `a` — a `TypeError`. -/
def pyMaxStar (a : Nat) : List Nat → Except PyErr Nat
  | [] => .error .typeError
  | x :: xs => .ok ((x :: xs).foldl max a)

/-- The per-column `fill` list computed by `print_table`'s loop:
`max(len(header), *map(lambda x: custom_len(x[idx]), args)) + extra_fill`
for each header index.  Row indexing `x[idx]` is in bounds whenever every
row has the headers' length (validated before this runs); the `getD`
default is unreachable then. -/
def table_fill (headers : List String) (args : List (List Cell))
    (extra_fill : Nat) : Except PyErr (List Nat) :=
  headers.enum.mapM (fun p => do
    let m ← pyMaxStar p.2.length
      (args.map (fun x => custom_len (x.getD p.1 (.str ""))))
    pure (m + extra_fill))

/-- What one `print_table` call prints: error lines (via `print_error`)
and plain output lines (via `print`). -/
structure TableOutput where
  errors : List String
  lines : List String
  deriving DecidableEq, Repr

/-- The message printed when some row's length differs from the headers'. -/
def tableMismatchError : String :=
  "Headers and table rows tuples should be the same length."

/-- `print_table(headers, *args, extra_fill=..., header_separator=...)`.
On a row-length mismatch: one error, nothing rendered.  Otherwise the
column widths are computed (raising `TypeError` when `args` is empty and
a header exists), then a blank line, the header line, the separator line
(the separator character repeated to the header's text length, padded to
the column width), one line per row, and a trailing blank line — each
line starting with a 3-space margin. -/
def print_table (headers : List String) (args : List (List Cell))
    (extra_fill : Nat) (header_separator : Char) : Except PyErr TableOutput :=
  if !(args.all (fun x => x.length = headers.length)) then
    .ok ⟨[tableMismatchError], []⟩
  else do
    let fill ← table_fill headers args extra_fill
    let headersLine := "   " ++ String.join
      (headers.enum.map (fun p => ljust p.2 (fill.getD p.1 0)))
    let separatorLine := "   " ++ String.join
      (headers.enum.map (fun p =>
        ljust (String.mk (List.replicate p.2.length header_separator))
          (fill.getD p.1 0)))
    let rowLines := args.map (fun arg => "   " ++ String.join
      (arg.enum.map (fun p => ljust (cellStr p.2) (fill.getD p.1 0))))
    .ok ⟨[], [""] ++ [headersLine, separatorLine] ++ rowLines ++ [""]⟩

/-! ## OrderedRecordPrinter: `pprint_dict_in_order` (utils.py lines 210-250)

The inner `prettyprint(title, body)` tests `isinstance(body, str)` on its
parameter but then prints the *closure variable* `value` (the last value
assigned in the order loop), not `body`.  When the order loop assigned
nothing, `value` is unassigned and referencing it raises `NameError`
(after the title line was already printed). -/

/-- A record value: a Python `str`, or a list of strings. -/
inductive PVal where
  | pstr (s : String)
  | plist (xs : List String)
  deriving DecidableEq, Repr

/-- Python `str()` of a record value (`str(list)` uses element `repr`s). -/
def pyStr : PVal → String
  | .pstr s => s
  | .plist xs =>
    "[" ++ String.intercalate ", " (xs.map (fun x => "\x27" ++ x ++ "\x27")) ++ "]"

/-- Iterating a record value: a `str` yields its characters, a list its
elements. -/
def pyIter : PVal → List String
  | .pstr s => s.data.map (fun c => String.mk [c])
  | .plist xs => xs

/-- Python `str.capitalize()`: first character upper-cased, the rest
lower-cased. -/
def pyCapitalize (s : String) : String :=
  match s.data with
  | [] => ""
  | c :: cs => String.mk (c.toUpper :: cs.map Char.toLower)

/-- The inner `prettyprint(title, body)`, with `value` the current state
of the enclosing scope's `value` variable (`none` = unassigned).  Returns
the lines printed and the exception raised, if any: the title line is
printed first, then both branches dereference `value`.  The list branch
prints `print_info('- ', e)` — the two arguments joined by the default
separator. -/
def prettyprint (title : String) (body : PVal) (value : Option PVal) :
    List String × Option PyErr :=
  let header := "\n" ++ pyCapitalize title ++ ":"
  match value with
  | none => ([header], some .nameError)
  | some v =>
    match body with
    | .pstr _ => ([header, pyStr v], none)
    | .plist _ => (header :: (pyIter v).map (fun e => "- " ++ " " ++ e), none)

/-- State threaded through the order loop: the remaining `keys` list, the
`value` variable (`none` = not yet assigned) and the output so far. -/
structure PpState where
  keys : List String
  value : Option PVal
  out : List String
  deriving DecidableEq, Repr

/-- One iteration of `for element in order`: `keys.pop(keys.index(element))`
raises `ValueError` when `element` is absent — caught, iteration skipped;
otherwise `value = dictionary[key]` and `prettyprint(element, value)`. -/
def pprint_order_step (dict : List (String × PVal)) (st : PpState)
    (element : String) : PpState :=
  if element ∈ st.keys then
    match dict.lookup element with
    | some v =>
      ⟨st.keys.erase element, some v,
       st.out ++ (prettyprint element v (some v)).1⟩
    | none => st
  else st

/-- The trailing `for rest_keys in keys` loop, run with whatever `value`
the order loop left behind; an exception stops the loop (and the whole
call). -/
def pprint_rest (dict : List (String × PVal)) (value : Option PVal) :
    List String → List String × Option PyErr
  | [] => ([], none)
  | k :: ks =>
    let body := (dict.lookup k).getD (.pstr "")
    let pr := prettyprint k body value
    match pr.2 with
    | some e => (pr.1, some e)
    | none =>
      let rest := pprint_rest dict value ks
      (pr.1 ++ rest.1, rest.2)

/-- `pprint_dict_in_order(dictionary, order)`.  The dictionary is an
association list whose order stands for the mapping's iteration order.
Returns the printed lines and the raised exception, if any. -/
def pprint_dict_in_order (dict : List (String × PVal)) (order : List String) :
    List String × Option PyErr :=
  let st := order.foldl (pprint_order_step dict) ⟨dict.map Prod.fst, none, []⟩
  let rest := pprint_rest dict st.value st.keys
  (st.out ++ rest.1, rest.2)

/-! ## PrintLock interleaving model (utils.py lines 11, 95-108)

Two threads (`true` and `false`) each execute the colour branch of
`__cprint`: `with print_lock:` acquire, then three writes (colour-start
escape, payload, reset escape + terminator), then the release performed
by `with` on every exit path.  A scheduler interleaves them arbitrarily;
the only constraint is the lock's semantics (acquire blocks while the
lock is held).  Program counters: 0 = before acquire, 1 = holding the
lock before the first write, 2 = after the colour-start write, 3 = after
the payload write, 4 = after the reset write, 5 = released / done. -/

/-- One chunk appearing on the shared output stream, tagged with the
thread that wrote it. -/
inductive Chunk where
  | startEsc (t : Bool)
  | payload (t : Bool)
  | resetEsc (t : Bool)
  deriving DecidableEq, Repr

/-- Shared state: both program counters, the lock owner, the output. -/
structure CState where
  pc : Bool → Nat
  owner : Option Bool
  out : List Chunk

/-- Update one thread's program counter. -/
def setPc (pc : Bool → Nat) (t : Bool) (n : Nat) : Bool → Nat :=
  fun u => if u = t then n else pc u

/-- The initial state: both threads before their acquire, lock free,
empty output. -/
def cInit : CState := ⟨fun _ => 0, none, []⟩

/-- One scheduler step: any thread may run its next instruction;
`acquire` is enabled only while the lock is free. -/
inductive CStep : CState → CState → Prop where
  | acquire (s : CState) (t : Bool) : s.pc t = 0 → s.owner = none →
      CStep s ⟨setPc s.pc t 1, some t, s.out⟩
  | wstart (s : CState) (t : Bool) : s.pc t = 1 →
      CStep s ⟨setPc s.pc t 2, s.owner, s.out ++ [.startEsc t]⟩
  | wpayload (s : CState) (t : Bool) : s.pc t = 2 →
      CStep s ⟨setPc s.pc t 3, s.owner, s.out ++ [.payload t]⟩
  | wreset (s : CState) (t : Bool) : s.pc t = 3 →
      CStep s ⟨setPc s.pc t 4, s.owner, s.out ++ [.resetEsc t]⟩
  | release (s : CState) (t : Bool) : s.pc t = 4 →
      CStep s ⟨setPc s.pc t 5, none, s.out⟩

/-- A state the two-thread system can reach from `cInit`. -/
def CReachable (s : CState) : Prop := Relation.ReflTransGen CStep cInit s

/-- Bracket-scanning an output stream: `o` is the thread whose colour
escape is currently open.  Returns `none` on a violation (a colour-start
while another is open, or an unmatched reset), otherwise the final open
state. -/
def scanOpen : Option Bool → List Chunk → Option (Option Bool)
  | o, [] => some o
  | o, .payload _ :: rest => scanOpen o rest
  | none, .startEsc t :: rest => scanOpen (some t) rest
  | some _, .startEsc _ :: _ => none
  | some u, .resetEsc t :: rest =>
    if t = u then scanOpen none rest else none
  | none, .resetEsc _ :: _ => none

/-- Which thread has written its colour-start but not yet its reset,
read off the program counters. -/
def openOf (pc : Bool → Nat) : Option Bool :=
  if pc true = 2 ∨ pc true = 3 then some true
  else if pc false = 2 ∨ pc false = 3 then some false
  else none

/-- The inductive invariant: a thread between acquire and release owns
the lock, and the output scanned so far is violation-free with exactly
the open escape the program counters dictate. -/
def CInv (s : CState) : Prop :=
  (∀ t, 1 ≤ s.pc t ∧ s.pc t ≤ 4 → s.owner = some t) ∧
  scanOpen none s.out = some (openOf s.pc)

/-! ## Theorems -/

/-- C8: for every path containing only `/` separators and no `.`,
`to_slashed(to_dotted(p)) = p` (`humanize_path ∘ pythonize_path`), and
symmetrically for paths containing only `.` separators and no `/`. -/
theorem pathcodec_roundtrip (p : List Char) :
    ('.' ∉ p → humanize_path (pythonize_path p) = p) ∧
    ('/' ∉ p → pythonize_path (humanize_path p) = p) := by
  constructor
  · intro h
    induction p with
    | nil => rfl
    | cons c cs ih =>
      simp only [List.mem_cons, not_or] at h
      simp only [pythonize_path, humanize_path, List.map_cons, List.map_map,
        List.cons.injEq, Function.comp] at ih ⊢
      refine ⟨?_, ih h.2⟩
      by_cases hc : c = '/'
      · simp [hc]
      · rw [if_neg hc, if_neg (fun hd => h.1 hd.symm)]
  · intro h
    induction p with
    | nil => rfl
    | cons c cs ih =>
      simp only [List.mem_cons, not_or] at h
      simp only [pythonize_path, humanize_path, List.map_cons, List.map_map,
        List.cons.injEq, Function.comp] at ih ⊢
      refine ⟨?_, ih h.2⟩
      by_cases hc : c = '.'
      · simp [hc]
      · rw [if_neg hc, if_neg (fun hd => h.1 hd.symm)]

/-- Witness for C8 at the concrete paths `exploits/routers/asus` and
`exploits.routers.asus`. -/
theorem pathcodec_roundtrip_witness :
    humanize_path (pythonize_path "exploits/routers/asus".data) =
      "exploits/routers/asus".data ∧
    pythonize_path (humanize_path "exploits.routers.asus".data) =
      "exploits.routers.asus".data :=
  ⟨(pathcodec_roundtrip "exploits/routers/asus".data).1 (by decide),
   (pathcodec_roundtrip "exploits.routers.asus".data).2 (by decide)⟩

/-- C2: a `module_required`-guarded handler with a falsy
`current_module` flag emits exactly one error line, leaves the state
unchanged and returns `None` without invoking the handler; with a truthy
flag the handler runs once and its state change and result are returned
unchanged, with no error line. -/
theorem module_required_spec {σ α : Type} (fn : ShellSelf σ → ShellSelf σ × α)
    (self : ShellSelf σ) :
    (self.current_module = false →
      module_required fn self = (self, none, [moduleRequiredError])) ∧
    (self.current_module = true →
      module_required fn self = ((fn self).1, some (fn self).2, [])) := by
  constructor <;> intro h <;> simp [module_required, h]

/-- A handler whose side effect is a counter increment, for the C2
witness. -/
def incrHandler (self : ShellSelf Nat) : ShellSelf Nat × Nat :=
  (⟨self.current_module, self.rest + 1⟩, self.rest + 1)

/-- Witness for C2: with no active module the counter stays 0 and one
error line appears; with an active module the counter becomes 1. -/
theorem module_required_spec_witness :
    module_required incrHandler ⟨false, 0⟩ =
      (⟨false, 0⟩, none, [moduleRequiredError]) ∧
    module_required incrHandler ⟨true, 0⟩ = (⟨true, 1⟩, some 1, []) :=
  ⟨(module_required_spec incrHandler ⟨false, 0⟩).1 rfl,
   (module_required_spec incrHandler ⟨true, 0⟩).2 rfl⟩

/-- C1: `http_request` returns a successful response unmodified with no
error output; on each of the three recognized failure classes it prints
exactly one error line of the corresponding form (`Invalid URL format:
...` for a missing or invalid scheme, `Connection error: ...` for a
transport failure, the underlying message verbatim for any other
request-layer failure) and returns the `None` sentinel instead of
raising. -/
theorem http_request_spec (url resp msg : String) :
    http_request url (.success resp) = .ok ⟨some resp, []⟩ ∧
    http_request url .missingSchema =
      .ok ⟨none, ["Invalid URL format: " ++ url]⟩ ∧
    http_request url .invalidSchema =
      .ok ⟨none, ["Invalid URL format: " ++ url]⟩ ∧
    http_request url .connectionError =
      .ok ⟨none, ["Connection error: " ++ url]⟩ ∧
    http_request url (.requestException msg) = .ok ⟨none, [msg]⟩ :=
  ⟨rfl, rfl, rfl, rfl, rfl⟩

/-- C6: a `stop_after(space_number)`-wrapped completion callback returns
an empty candidate list without invoking the callback exactly when
splitting the line on spaces with limit `space_number` yields
`space_number + 1` pieces; otherwise — including when inspecting the
line raises (the error is printed) — it delegates to the callback and
returns its result. -/
theorem stop_after_spec {α : Type} (n : Nat) (line : List Char)
    (cands : List α) (e : String) :
    ((pySplitSpace line n).length = n + 1 →
      stop_after n cands (.ok line) = ⟨false, [], []⟩) ∧
    ((pySplitSpace line n).length ≠ n + 1 →
      stop_after n cands (.ok line) = ⟨true, cands, []⟩) ∧
    stop_after n cands (.error e) = ⟨true, cands, [e]⟩ := by
  refine ⟨?_, ?_, rfl⟩ <;> intro h <;> simp [stop_after, h]

/-- Witness for C6 at the spec's own examples: `"use exploits/x "` with
`space_count = 2` stops (2 spaces already typed), `"use "` delegates. -/
theorem stop_after_spec_witness :
    stop_after 2 ["opt"] (.ok "use exploits/x ".data) =
      ⟨false, ([] : List String), []⟩ ∧
    stop_after 2 ["opt"] (.ok "use ".data) = ⟨true, ["opt"], []⟩ :=
  ⟨(stop_after_spec 2 "use exploits/x ".data ["opt"] "").1 (by decide),
   (stop_after_spec 2 "use ".data ["opt"] "").2.1 (by decide)⟩

/-- C7 (code bug): with `verbose` false the call is a no-op, and with no
keyword arguments at all the output is the parts joined by the default
separator plus the default terminator — but passing `verbose=True`
explicitly with no colour makes the no-colour branch forward the
`verbose` key to `print`, which raises `TypeError` instead of printing. -/
theorem cprint_verbose_kwarg_bug :
    cprint ["a"] ⟨some false, none, none, none, none⟩ = .ok [] ∧
    cprint ["a", "b"] noKw = .ok [(0, "a b\n")] ∧
    cprint ["a"] ⟨some true, none, none, none, none⟩ = .error .typeError := by
  exact ⟨rfl, rfl, rfl⟩

/-- The record from `pprint_dict_in_order`'s own docstring example. -/
def exInfoDict : List (String × PVal) :=
  [("name", .pstr "John"), ("sex", .pstr "male"),
   ("hobby", .plist ["rugby", "golf"])]

/-- C3 (code bug): on the function's own docstring example the remainder
key `hobby` is printed with the characters of the stale `value` variable
(the last ordered key's value, `"John"`) instead of its own list — and
with an empty order and a non-empty record the remainder loop hits an
unassigned `value` and raises `NameError` after the title line. -/
theorem pprint_stale_value_bug :
    pprint_dict_in_order exInfoDict ["sex", "name"] =
      (["\nSex:", "male", "\nName:", "John", "\nHobby:",
        "-  J", "-  o", "-  h", "-  n"], none) ∧
    "-  rugby" ∉ (pprint_dict_in_order exInfoDict ["sex", "name"]).1 ∧
    pprint_dict_in_order [("doc", .pstr "x")] [] =
      (["\nDoc:"], some .nameError) := by
  refine ⟨?_, by decide, ?_⟩ <;> rfl

/-- C4: whenever some row's length differs from the header count,
`print_table` reports exactly one reject error line and renders zero
table lines. -/
theorem print_table_mismatch (headers : List String) (args : List (List Cell))
    (ef : Nat) (hs : Char)
    (h : ∃ r ∈ args, r.length ≠ headers.length) :
    print_table headers args ef hs = .ok ⟨[tableMismatchError], []⟩ := by
  obtain ⟨r, hr, hne⟩ := h
  have hall : args.all (fun x => x.length = headers.length) = false := by
    rw [Bool.eq_false_iff]
    intro hc
    exact hne (by simpa using List.all_eq_true.mp hc r hr)
  simp [print_table, hall]

/-- Witness for C4: two headers, one row of length one. -/
theorem print_table_mismatch_witness :
    print_table ["Name", "Description"] [[.str "x"]] 5 '-' =
      .ok ⟨[tableMismatchError], []⟩ :=
  print_table_mismatch ["Name", "Description"] [[.str "x"]] 5 '-'
    ⟨[.str "x"], by decide, by decide⟩

/-- `foldl max` over `Nat` against the `max` of the start and the
`foldr max 0` maximum of the list. -/
theorem foldl_max_eq_max_foldr (a : Nat) (l : List Nat) :
    l.foldl max a = max a (l.foldr max 0) := by
  induction l generalizing a with
  | nil => simp
  | cons x xs ih =>
    simp only [List.foldl_cons, List.foldr_cons, ih (max a x), Nat.max_assoc]

/-- `mapM` over `Except` when every element succeeds. -/
theorem mapM_ok {α β ε : Type} (l : List α) (f : α → Except ε β) (g : α → β)
    (h : ∀ p ∈ l, f p = .ok (g p)) : l.mapM f = .ok (l.map g) := by
  induction l with
  | nil => rfl
  | cons x xs ih =>
    rw [List.mapM_cons, h x (List.mem_cons_self x xs),
      ih (fun p hp => h p (List.mem_cons_of_mem x hp))]
    rfl

/-- C5: for a table whose rows all have the headers' length (and at least
one row, so the `max` call is defined), the column width at index `i` is
`max(len(headers[i]), max over rows of displayed-length(row[i])) +
extra_fill`, where the displayed length of a value without a length
concept is 0 and measuring it is total. -/
theorem table_fill_spec (headers : List String) (args : List (List Cell))
    (ef : Nat) (hne : args ≠ [])
    (hlen : ∀ r ∈ args, r.length = headers.length) :
    table_fill headers args ef =
      .ok (headers.enum.map (fun p =>
        max p.2.length
          ((args.map (fun r => custom_len (r.getD p.1 (.str "")))).foldr max 0)
          + ef)) ∧
    ∀ s, custom_len (.nolen s) = 0 := by
  refine ⟨?_, fun s => rfl⟩
  unfold table_fill
  apply mapM_ok
  intro p _
  cases hargs : args with
  | nil => exact absurd hargs hne
  | cons r rs =>
    simp only [List.map_cons, pyMaxStar, Except.bind, Except.map]
    rw [foldl_max_eq_max_foldr]
    rfl

/-- Witness for C5: a 2-column table with one string cell and one
length-less cell; widths are `max(4, 2) + 5 = 9` and `max(11, 0) + 5 =
16`. -/
theorem table_fill_spec_witness :
    table_fill ["Name", "Description"] [[.str "ab", .nolen "None"]] 5 =
      .ok [9, 16] :=
  (table_fill_spec ["Name", "Description"] [[.str "ab", .nolen "None"]] 5
    (by decide) (by decide)).1

/-- C10: `print_table` with at least one header and zero rows raises
`TypeError` (Python's `max` applied to the single integer argument
`len(header)`) instead of rendering a header-only table. -/
theorem print_table_zero_rows (headers : List String) (ef : Nat) (hs : Char)
    (h : headers ≠ []) :
    print_table headers [] ef hs = .error .typeError := by
  cases headers with
  | nil => exact absurd rfl h
  | cons a hdrs =>
    have h1 : table_fill (a :: hdrs) [] ef = Except.error PyErr.typeError := by
      unfold table_fill
      rw [List.enum_cons, List.mapM_cons]
      rfl
    unfold print_table
    split
    case isTrue hc => exact Bool.noConfusion hc
    case isFalse hc =>
      rw [h1]
      rfl

/-- Witness for C10: one header, no rows. -/
theorem print_table_zero_rows_witness :
    print_table ["Name"] [] 5 '-' = .error .typeError :=
  print_table_zero_rows ["Name"] 5 '-' (by decide)

/-- `scanOpen` over an appended stream: scan the prefix first, then
continue (propagating a violation). -/
theorem scanOpen_append (xs ys : List Chunk) (o : Option Bool) :
    scanOpen o (xs ++ ys) =
      Option.bind (scanOpen o xs) (fun o2 => scanOpen o2 ys) := by
  induction xs generalizing o with
  | nil => simp [scanOpen]
  | cons c rest ih =>
    cases c with
    | payload v => simp [scanOpen, ih]
    | startEsc v =>
      cases o with
      | none => simp [scanOpen, ih]
      | some w => simp [scanOpen]
    | resetEsc v =>
      cases o with
      | none => simp [scanOpen]
      | some w =>
        by_cases hv : v = w <;> simp [scanOpen, hv, ih]

/-- The initial state satisfies the invariant. -/
theorem cInv_init : CInv cInit := by
  constructor
  · intro t ht
    have hz : cInit.pc t = 0 := rfl
    omega
  · rfl

/-- One step preserves the invariant. -/
theorem cInv_step {s s2 : CState} (hs : CInv s) (st : CStep s s2) : CInv s2 := by
  obtain ⟨hown, hscan⟩ := hs
  cases st with
  | acquire t h0 hfree =>
    constructor
    · intro u hu
      dsimp only at hu ⊢
      by_cases hut : u = t
      · subst hut; rfl
      · have hpc : setPc s.pc t 1 u = s.pc u := by simp [setPc, hut]
        rw [hpc] at hu
        have hcontra := hown u hu
        rw [hfree] at hcontra
        exact Option.noConfusion hcontra
    · have hsame : openOf (setPc s.pc t 1) = openOf s.pc := by
        cases t <;> simp [openOf, setPc, h0]
      show scanOpen none s.out = some (openOf (setPc s.pc t 1))
      rw [hsame]
      exact hscan
  | wstart t h1 =>
    have howner : s.owner = some t := hown t ⟨by omega, by omega⟩
    have hother : ¬(s.pc (!t) = 2 ∨ s.pc (!t) = 3) := by
      intro hcase
      have h2 := hown (!t) ⟨by omega, by omega⟩
      rw [howner] at h2
      cases t <;> simp at h2
    constructor
    · intro u hu
      dsimp only at hu ⊢
      by_cases hut : u = t
      · subst hut; exact howner
      · have hpc : setPc s.pc t 2 u = s.pc u := by simp [setPc, hut]
        rw [hpc] at hu
        exact hown u hu
    · have hopen : openOf s.pc = none := by
        cases t
        · simp only [Bool.not_false] at hother
          simp [openOf, h1, hother]
        · simp only [Bool.not_true] at hother
          simp [openOf, h1, hother]
      have hopen2 : openOf (setPc s.pc t 2) = some t := by
        cases t
        · simp only [Bool.not_false] at hother
          simp [openOf, setPc, hother]
        · simp [openOf, setPc]
      show scanOpen none (s.out ++ [Chunk.startEsc t]) =
        some (openOf (setPc s.pc t 2))
      rw [scanOpen_append, hscan, hopen, hopen2]
      rfl
  | wpayload t h2 =>
    have howner : s.owner = some t := hown t ⟨by omega, by omega⟩
    constructor
    · intro u hu
      dsimp only at hu ⊢
      by_cases hut : u = t
      · subst hut; exact howner
      · have hpc : setPc s.pc t 3 u = s.pc u := by simp [setPc, hut]
        rw [hpc] at hu
        exact hown u hu
    · have hsame : openOf (setPc s.pc t 3) = openOf s.pc := by
        cases t <;> simp [openOf, setPc, h2]
      show scanOpen none (s.out ++ [Chunk.payload t]) =
        some (openOf (setPc s.pc t 3))
      rw [scanOpen_append, hscan, hsame]
      simp only [Option.some_bind, scanOpen]
  | wreset t h3 =>
    have howner : s.owner = some t := hown t ⟨by omega, by omega⟩
    have hother : ¬(s.pc (!t) = 2 ∨ s.pc (!t) = 3) := by
      intro hcase
      have h2 := hown (!t) ⟨by omega, by omega⟩
      rw [howner] at h2
      cases t <;> simp at h2
    constructor
    · intro u hu
      dsimp only at hu ⊢
      by_cases hut : u = t
      · subst hut; exact howner
      · have hpc : setPc s.pc t 4 u = s.pc u := by simp [setPc, hut]
        rw [hpc] at hu
        exact hown u hu
    · have hopen : openOf s.pc = some t := by
        cases t
        · simp only [Bool.not_false] at hother
          simp [openOf, h3, hother]
        · simp [openOf, h3]
      have hopen2 : openOf (setPc s.pc t 4) = none := by
        cases t
        · simp only [Bool.not_false] at hother
          simp [openOf, setPc, hother]
        · simp only [Bool.not_true] at hother
          simp [openOf, setPc, hother]
      show scanOpen none (s.out ++ [Chunk.resetEsc t]) =
        some (openOf (setPc s.pc t 4))
      rw [scanOpen_append, hscan, hopen, hopen2]
      simp [scanOpen]
  | release t h4 =>
    constructor
    · intro u hu
      dsimp only at hu ⊢
      by_cases hut : u = t
      · subst hut
        have hpc : setPc s.pc u 5 u = 5 := by simp [setPc]
        rw [hpc] at hu
        omega
      · have hpc : setPc s.pc t 5 u = s.pc u := by simp [setPc, hut]
        rw [hpc] at hu
        have howner : s.owner = some t := hown t ⟨by omega, by omega⟩
        have h5 := hown u hu
        rw [howner] at h5
        exact (hut (Option.some.inj h5).symm).elim
    · have hsame : openOf (setPc s.pc t 5) = openOf s.pc := by
        cases t <;> simp [openOf, setPc, h4]
      show scanOpen none s.out = some (openOf (setPc s.pc t 5))
      rw [hsame]
      exact hscan

/-- Every reachable state satisfies the invariant. -/
theorem cInv_reachable {s : CState} (h : CReachable s) : CInv s := by
  induction h with
  | refl => exact cInv_init
  | tail _ hstep ih => exact cInv_step ih hstep

/-- While thread `t`'s escape is open, a violation-free scan cannot hit
another colour-start before `t`'s reset. -/
theorem scanOpen_reset_before_start (t u : Bool) (mid post : List Chunk)
    (o : Option Bool)
    (h : scanOpen (some t) (mid ++ Chunk.startEsc u :: post) = some o) :
    Chunk.resetEsc t ∈ mid := by
  induction mid with
  | nil => simp [scanOpen] at h
  | cons c rest ih =>
    cases c with
    | payload v =>
      rw [List.cons_append] at h
      simp only [scanOpen] at h
      exact List.mem_cons_of_mem _ (ih h)
    | startEsc v =>
      rw [List.cons_append] at h
      simp [scanOpen] at h
    | resetEsc v =>
      by_cases hv : v = t
      · subst hv
        exact List.mem_cons_self _ _
      · rw [List.cons_append] at h
        simp [scanOpen, hv] at h

/-- C9: in every reachable interleaving of two threads issuing colourized
writes under `print_lock`, whenever the combined output contains thread
`t`'s colour-start followed later by any other colour-start, thread `t`'s
reset escape occurs between the two: escape-sequence pairs never
interleave. -/
theorem cprint_no_escape_interleaving (s : CState) (hr : CReachable s)
    (pre mid post : List Chunk) (t u : Bool)
    (hout : s.out = pre ++ Chunk.startEsc t :: (mid ++ Chunk.startEsc u :: post)) :
    Chunk.resetEsc t ∈ mid := by
  have hscan := (cInv_reachable hr).2
  rw [hout, scanOpen_append] at hscan
  cases hpre : scanOpen none pre with
  | none =>
    rw [hpre] at hscan
    exact Option.noConfusion hscan
  | some o1 =>
    rw [hpre] at hscan
    cases o1 with
    | some w =>
      simp [scanOpen] at hscan
    | none =>
      simp only [Option.some_bind, scanOpen] at hscan
      exact scanOpen_reset_before_start t u mid post _ hscan

/-- The states of a witness schedule: thread `true` runs its whole
colourized write, then thread `false` runs its own. -/
def wT0 : CState := cInit

/-- Witness schedule state after `true` acquires. -/
def wT1 : CState := ⟨setPc wT0.pc true 1, some true, wT0.out⟩

/-- Witness schedule state after `true` writes its colour start. -/
def wT2 : CState := ⟨setPc wT1.pc true 2, wT1.owner, wT1.out ++ [.startEsc true]⟩

/-- Witness schedule state after `true` writes its payload. -/
def wT3 : CState := ⟨setPc wT2.pc true 3, wT2.owner, wT2.out ++ [.payload true]⟩

/-- Witness schedule state after `true` writes its reset. -/
def wT4 : CState := ⟨setPc wT3.pc true 4, wT3.owner, wT3.out ++ [.resetEsc true]⟩

/-- Witness schedule state after `true` releases. -/
def wT5 : CState := ⟨setPc wT4.pc true 5, none, wT4.out⟩

/-- Witness schedule state after `false` acquires. -/
def wT6 : CState := ⟨setPc wT5.pc false 1, some false, wT5.out⟩

/-- Witness schedule state after `false` writes its colour start. -/
def wT7 : CState := ⟨setPc wT6.pc false 2, wT6.owner, wT6.out ++ [.startEsc false]⟩

/-- Witness schedule state after `false` writes its payload. -/
def wT8 : CState := ⟨setPc wT7.pc false 3, wT7.owner, wT7.out ++ [.payload false]⟩

/-- Witness schedule state after `false` writes its reset. -/
def wT9 : CState := ⟨setPc wT8.pc false 4, wT8.owner, wT8.out ++ [.resetEsc false]⟩

/-- Witness schedule final state: `false` released. -/
def wT10 : CState := ⟨setPc wT9.pc false 5, none, wT9.out⟩

/-- The witness schedule is a reachable execution. -/
theorem wT10_reachable : CReachable wT10 :=
  .tail (.tail (.tail (.tail (.tail (.tail (.tail (.tail (.tail (.tail .refl
    (CStep.acquire wT0 true rfl rfl))
    (CStep.wstart wT1 true rfl))
    (CStep.wpayload wT2 true rfl))
    (CStep.wreset wT3 true rfl))
    (CStep.release wT4 true rfl))
    (CStep.acquire wT5 false rfl rfl))
    (CStep.wstart wT6 false rfl))
    (CStep.wpayload wT7 false rfl))
    (CStep.wreset wT8 false rfl))
    (CStep.release wT9 false rfl)

/-- Witness for C9: on the concrete schedule above, thread `true`'s
reset separates the two colour-starts of the combined output. -/
theorem cprint_no_escape_interleaving_witness :
    Chunk.resetEsc true ∈ [Chunk.payload true, Chunk.resetEsc true] :=
  cprint_no_escape_interleaving wT10 wT10_reachable
    [] [Chunk.payload true, Chunk.resetEsc true]
    [Chunk.payload false, Chunk.resetEsc false] true false rfl

end RsUtils
